import Mathlib

/-!
Verification of the TOTP authenticator Apache module
(`src/mod_totp_authenticator.c`, `src/utils.c`).

Machine integers are modelled as `Nat` with explicit reduction `% 2^w`
where the C code relies on wrapping; bytes are `Nat` values below 256.
-/

set_option maxRecDepth 100000

namespace Totp

/-! Bit-level helpers -/

/-- Truncation of a value to 32 bits. -/
def w32 (x : Nat) : Nat := x % 4294967296

/-- Left rotation of a 32-bit word by `n` bits (input assumed `< 2^32`). -/
def rotl (n x : Nat) : Nat := ((x * 2 ^ n) % 4294967296) ||| (x / 2 ^ (32 - n))

/-- Big-endian 4-byte encoding of a 32-bit word. -/
def toBE4 (n : Nat) : List Nat :=
  [n / 2 ^ 24 % 256, n / 2 ^ 16 % 256, n / 2 ^ 8 % 256, n % 256]

/-- Big-endian 8-byte encoding of a 64-bit value, as `generate_totp_code`
produces from its `challenge` argument (`challenge_data[j] = challenge >> 8*(7-j)`). -/
def toBE8 (n : Nat) : List Nat :=
  [n / 2 ^ 56 % 256, n / 2 ^ 48 % 256, n / 2 ^ 40 % 256, n / 2 ^ 32 % 256,
   n / 2 ^ 24 % 256, n / 2 ^ 16 % 256, n / 2 ^ 8 % 256, n % 256]

/-- Group a byte list into big-endian 32-bit words (incomplete tail groups dropped). -/
def bytesToWords : List Nat → List Nat
  | a :: b :: c :: d :: rest => (((a * 256 + b) * 256 + c) * 256 + d) :: bytesToWords rest
  | _ => []

/-! Model of SHA-1.
Modelled from the spec: the module links against an external `sha1.h` /
`hmac.h` implementation that is not part of `src/`; the spec prescribes
"a keyed hash (HMAC over SHA-1) of those 8 bytes using the secret as key,
producing a 20-byte MAC".  This is FIPS 180-1 SHA-1 over byte lists. -/

/-- The SHA-1 round function `f_t`. -/
def sha1F (t b c d : Nat) : Nat :=
  if t < 20 then (b &&& c) ||| ((b ^^^ 0xFFFFFFFF) &&& d)
  else if t < 40 then b ^^^ c ^^^ d
  else if t < 60 then (b &&& c) ||| (b &&& d) ||| (c &&& d)
  else b ^^^ c ^^^ d

/-- The SHA-1 round constant `K_t`. -/
def sha1K (t : Nat) : Nat :=
  if t < 20 then 0x5A827999
  else if t < 40 then 0x6ED9EBA1
  else if t < 60 then 0x8F1BBCDC
  else 0xCA62C1D6

/-- Extend the (reversed) word list by `n` scheduled words
(`W_t = ROTL1 (W_{t-3} xor W_{t-8} xor W_{t-14} xor W_{t-16})`). -/
def scheduleAux : Nat → List Nat → List Nat
  | 0, acc => acc.reverse
  | n + 1, acc =>
    let w := rotl 1 ((acc.getD 2 0) ^^^ (acc.getD 7 0) ^^^ (acc.getD 13 0) ^^^ (acc.getD 15 0))
    scheduleAux n (w :: acc)

/-- The 80-word message schedule of one 16-word block. -/
def sha1Schedule (block : List Nat) : List Nat := scheduleAux 64 block.reverse

/-- One SHA-1 compression step over a 16-word block. -/
def sha1Compress (h : List Nat) (block : List Nat) : List Nat :=
  match h with
  | [h0, h1, h2, h3, h4] =>
    let step := fun (st : Nat × Nat × Nat × Nat × Nat) (tw : Nat × Nat) =>
      let (a, b, c, d, e) := st
      let temp := (rotl 5 a + sha1F tw.1 b c d + e + sha1K tw.1 + tw.2) % 4294967296
      (temp, a, rotl 30 b, c, d)
    let fin := (sha1Schedule block).enum.foldl step (h0, h1, h2, h3, h4)
    [w32 (h0 + fin.1), w32 (h1 + fin.2.1), w32 (h2 + fin.2.2.1),
     w32 (h3 + fin.2.2.2.1), w32 (h4 + fin.2.2.2.2)]
  | _ => h

/-- Padding for SHA-1: append `0x80`, zeros, then the 64-bit big-endian bit length,
to a multiple of 64 bytes. -/
def sha1Pad (msg : List Nat) : List Nat :=
  msg ++ [0x80] ++ List.replicate ((119 - msg.length % 64) % 64) 0 ++ toBE8 (8 * msg.length)

/-- The SHA-1 digest of a byte list, as a 20-byte list. -/
def sha1 (msg : List Nat) : List Nat :=
  let padded := sha1Pad msg
  let h := (List.range (padded.length / 64)).foldl
    (fun h i => sha1Compress h (bytesToWords (List.take 64 (List.drop (64 * i) padded))))
    [0x67452301, 0xEFCDAB89, 0x98BADCFE, 0x10325476, 0xC3D2E1F0]
  (h.map toBE4).flatten

/-- Modelled from the spec: HMAC over SHA-1 (`hmac_sha1` from the external
`hmac.h`, not part of `src/`), RFC 2104 with a 64-byte block. -/
def hmac_sha1 (key msg : List Nat) : List Nat :=
  let k := if 64 < key.length then sha1 key else key
  let kp := k ++ List.replicate (64 - k.length) 0
  let inner := sha1 ((kp.map (fun b => b ^^^ 0x36)) ++ msg)
  sha1 ((kp.map (fun b => b ^^^ 0x5C)) ++ inner)

/-! Code generator (`generate_totp_code`, mod_totp_authenticator.c:349-371) -/

/-- Function `generate_totp_code`: HMAC-SHA1 the 8 big-endian challenge bytes with the
secret, dynamic truncation (`offset = hash[19] & 0xF`, 4 bytes big-endian),
clear the sign bit, reduce mod 1000000. -/
def generate_totp_code (challenge : Nat) (secret : List Nat) : Nat :=
  let hash := hmac_sha1 secret (toBE8 (challenge % 2 ^ 64))
  let offset := (hash.getD 19 0) &&& 0xF
  let code := (((hash.getD offset 0) * 256 + hash.getD (offset + 1) 0) * 256
      + hash.getD (offset + 2) 0) * 256 + hash.getD (offset + 3) 0
  (code &&& 0x7FFFFFFF) % 1000000

/-! Character helpers (`apr_isdigit` / `apr_isalnum` in the C locale) -/

/-- Predicate `apr_isdigit` in the C locale: ASCII `0`-`9`. -/
def isDigitC (c : Char) : Bool := c.isDigit

/-- Predicate `apr_isalnum` in the C locale: ASCII letters and digits. -/
def isAlnumC (c : Char) : Bool := c.isAlpha || c.isDigit

/-- Decimal value of a digit string (the core of `apr_atoi64` on all-digit input). -/
def digitsVal (l : List Char) : Nat := l.foldl (fun a c => a * 10 + (c.toNat - 48)) 0

/-- Function `apr_atoi64` on an all-digit token: `strtoll` semantics, clamping overflow
to `INT64_MAX`. -/
def apr_atoi64d (l : List Char) : Nat := min (digitsVal l) (2 ^ 63 - 1)

/-- Model of `apr_strtok` tokenisation on the separator `" "`: maximal nonempty runs
of non-space characters, leading/trailing/repeated separators skipped. -/
def splitSp (l : List Char) : List (List Char) :=
  (l.splitOn ' ').filter (fun t => t ≠ [])

/-! Credential loader (`get_user_totp_config`, mod_totp_authenticator.c:167-340) -/

/-- Structure `totp_user_config` (mod_totp_authenticator.c:149-158).  `shared_key` is
`none` while the secret line has not yet been seen (`NULL` in C); the decoded
key bytes once it has. -/
structure totp_user_config where
  shared_key : Option (List Nat)
  disallow_reuse : Bool
  window_size : Nat
  rate_limit_count : Nat
  rate_limit_seconds : Nat
  scratch_codes : List Nat
  deriving Repr, DecidableEq

/-- The zero-initialised `totp_user_config` (`memset(user_config, 0, ...)`). -/
def initUserConfig : totp_user_config :=
  { shared_key := none, disallow_reuse := false, window_size := 0,
    rate_limit_count := 0, rate_limit_seconds := 0, scratch_codes := [] }

/-- Directive-line handling (`line[0] == '"'` branch): tokenise from `&line[2]`;
recognise `DISALLOW_REUSE`, `WINDOW_SIZE <n>` (all-digit value clamped to
[0,32], otherwise left unchanged), `RATE_LIMIT <count> <seconds>` (count
clamped to [0,5]; seconds clamped to [30,300]; an invalid seconds value forces
the count back to 0); anything else ignored.  A missing value token is
modelled as leaving the field unchanged. -/
def processDirective (cfg : totp_user_config) (line : List Char) : totp_user_config :=
  match splitSp (line.drop 2) with
  | [] => cfg
  | t :: rest =>
    if t = "DISALLOW_REUSE".toList then { cfg with disallow_reuse := true }
    else if t = "WINDOW_SIZE".toList then
      match rest with
      | [] => cfg
      | v :: _ =>
        if v.all isDigitC then { cfg with window_size := max 0 (min (apr_atoi64d v) 32) }
        else cfg
    else if t = "RATE_LIMIT".toList then
      match rest with
      | [] => cfg
      | [v1] =>
        let cfg1 := if v1.all isDigitC then
            { cfg with rate_limit_count := max 0 (min (apr_atoi64d v1) 5) } else cfg
        { cfg1 with rate_limit_count := 0 }
      | v1 :: v2 :: _ =>
        let cfg1 := if v1.all isDigitC then
            { cfg with rate_limit_count := max 0 (min (apr_atoi64d v1) 5) } else cfg
        if v2.all isDigitC then
          { cfg1 with rate_limit_seconds := max 30 (min (apr_atoi64d v2) 300) }
        else { cfg1 with rate_limit_count := 0 }
    else cfg

/-- One loop iteration of `get_user_totp_config` over a configuration line:
blank lines skipped; `"`-lines are directives; the first other line is the
Base32 secret (decode failure aborts the whole load with `none`); later ones
are scratch codes (all-digit, at most 10 kept, cast to `unsigned int`). -/
def processLine (decode : List Char → Option (List Nat))
    (cfg : totp_user_config) (line : List Char) : Option totp_user_config :=
  if line = [] then some cfg
  else if line.head? = some '"' then some (processDirective cfg line)
  else match cfg.shared_key with
  | none =>
    match decode line with
    | none => none
    | some key => some { cfg with shared_key := some key }
  | some _ =>
    if line.all isDigitC ∧ cfg.scratch_codes.length < 10 then
      some { cfg with scratch_codes := cfg.scratch_codes ++ [apr_atoi64d line % 2 ^ 32] }
    else some cfg

/-- Fold `processLine` over the record's lines, aborting on secret-decode failure. -/
def processLines (decode : List Char → Option (List Nat))
    (cfg : totp_user_config) : List (List Char) → Option totp_user_config
  | [] => some cfg
  | l :: ls =>
    match processLine decode cfg l with
    | none => none
    | some cfg' => processLines decode cfg' ls

/-- Per-directory module configuration (`totp_auth_config_rec`). -/
structure totp_auth_config_rec where
  tokenDir : Option String
  stateDir : Option String

/-- The environment a request runs against: the token store maps a username
to the lines of its credential file (`none`: the file cannot be opened), the
Base32 decoder stands for the external `base32_decode`, and `md5` for the
external `apr_md5`. -/
structure Env where
  conf : totp_auth_config_rec
  store : String → Option (List (List Char))
  decode : List Char → Option (List Nat)
  md5 : List Char → List Nat

/-- Function `get_user_totp_config`: fail if `TOTPAuthTokenDir` is unset or the user's
file cannot be opened; otherwise parse its lines from the zeroed record. -/
def get_user_totp_config (env : Env) (user : String) : Option totp_user_config :=
  match env.conf.tokenDir with
  | none => none
  | some _ =>
    match env.store user with
    | none => none
    | some lines => processLines env.decode initUserConfig lines

/-! Admission marker (`mark_code_invalid`, mod_totp_authenticator.c:381-420) -/

/-- The state directory's contents: the set of `user-c<password>` marker
files that exist, as (user, password) pairs. -/
structure FsState where
  markers : List (String × String)
  deriving Repr, DecidableEq

/-- Function `mark_code_invalid`: fail if `TOTPAuthStateDir` is unset; create
`stateDir/user-c<password>` with `APR_FOPEN_EXCL`, which fails exactly when
the marker already exists.  Returns success and the new state. -/
def mark_code_invalid (conf : totp_auth_config_rec) (st : FsState)
    (user password : String) : Bool × FsState :=
  match conf.stateDir with
  | none => (false, st)
  | some _ =>
    if (user, password) ∈ st.markers then (false, st)
    else (true, ⟨(user, password) :: st.markers⟩)

/-! Password check (`authn_totp_check_password`, mod_totp_authenticator.c:424-547) -/

/-- Verdict values (`authn_status`) used by the module. -/
inductive authn_status where
  | granted
  | denied
  | userFound
  | userNotFound
  deriving Repr, DecidableEq

/-- The 64-bit wrap of `timestamp + i` (`unsigned long` plus `int`). -/
def stepAt (t : Nat) (i : Int) : Nat := (((t : Int) + i) % (2 ^ 64 : Int)).toNat

/-- The ascending offset list `-w, ..., +w` scanned by the TOTP loop. -/
def offsetsList (w : Nat) : List Int :=
  (List.range (2 * w + 1)).map (fun (j : Nat) => (j : Int) - (w : Int))

/-- The TOTP loop body: on the first offset whose candidate code equals the
presented code, call `mark_code_invalid`; grant on success, break (deny) on
failure.  No match over the whole list denies. -/
def totp_scan (conf : totp_auth_config_rec) (st : FsState) (user password : String)
    (key : List Nat) (timestamp : Nat) (userCode : Nat) :
    List Int → authn_status × FsState
  | [] => (authn_status.denied, st)
  | i :: rest =>
    if generate_totp_code (stepAt timestamp i) key = userCode then
      match mark_code_invalid conf st user password with
      | (true, st') => (authn_status.granted, st')
      | (false, st') => (authn_status.denied, st')
    else totp_scan conf st user password key timestamp userCode rest

/-- The scratch-code loop body: first stored code equal to the presented code
goes to admission; grant on success, break (deny) on failure. -/
def scratch_scan (conf : totp_auth_config_rec) (st : FsState) (user password : String)
    (userCode : Nat) : List Nat → authn_status × FsState
  | [] => (authn_status.denied, st)
  | c :: rest =>
    if c = userCode then
      match mark_code_invalid conf st user password with
      | (true, st') => (authn_status.granted, st')
      | (false, st') => (authn_status.denied, st')
    else scratch_scan conf st user password userCode rest

/-- Function `authn_totp_check_password`.  Returns the verdict, the state directory's
new contents, and whether the credential store was consulted
(`get_user_totp_config` invoked).  Control flow: reject non-alphanumeric
usernames; reject passwords that are not exactly 6 or 8 digits; load the
user's record (failure denies); 6 digits take the TOTP window scan, 8 digits
the scratch-code scan. -/
def authn_totp_check_password (env : Env) (st : FsState) (timestamp : Nat)
    (user password : String) : authn_status × FsState × Bool :=
  if ¬ (user.toList.all isAlnumC) then (authn_status.denied, st, false)
  else if ¬ ((password.length = 6 ∨ password.length = 8) ∧ password.toList.all isDigitC) then
    (authn_status.denied, st, false)
  else
    match get_user_totp_config env user with
    | none => (authn_status.denied, st, true)
    | some cfg =>
      let userCode := apr_atoi64d password.toList % 2 ^ 32
      let key := cfg.shared_key.getD []
      if password.length = 6 then
        let r := totp_scan env.conf st user password key timestamp userCode
          (offsetsList cfg.window_size)
        (r.1, r.2, true)
      else
        let r := scratch_scan env.conf st user password userCode cfg.scratch_codes
        (r.1, r.2, true)

/-! Realm hash (`authn_totp_get_realm_hash`, mod_totp_authenticator.c:553-607) -/

/-- Function `hex_encode` (mod_totp_authenticator.c:87-102): lowercase hex of a byte list. -/
def hex_encode (data : List Nat) : List Char :=
  data.flatMap (fun b =>
    ["0123456789abcdef".toList.getD (b / 16 % 16) '0',
     "0123456789abcdef".toList.getD (b % 16) '0'])

/-- The `"%6.6u"` rendering of a TOTP code: zero-padded to 6 digits. -/
def pad6 (n : Nat) : List Char :=
  let s := (Nat.toDigits 10 n)
  List.replicate (6 - s.length) '0' ++ s

/-- Function `authn_totp_get_realm_hash`: load the record (failure returns
`AUTH_USER_NOT_FOUND`), compute the single current code at the current
time-step, hash `user:realm:code` with `apr_md5` and return its hex encoding.
The filesystem state is returned untouched: the function never calls
`mark_code_invalid` nor touches the state directory. -/
def authn_totp_get_realm_hash (env : Env) (st : FsState) (timestamp : Nat)
    (user realm : String) : authn_status × Option (List Char) × FsState :=
  match get_user_totp_config env user with
  | none => (authn_status.userNotFound, none, st)
  | some cfg =>
    let code := generate_totp_code (stepAt timestamp 0) (cfg.shared_key.getD [])
    let hashstr := user.toList ++ [':'] ++ realm.toList ++ [':'] ++ pad6 code
    (authn_status.userFound, some (hex_encode (env.md5 hashstr)), st)

/-! Ledger compaction (`totp_check_n_update_file_helper`, utils.c:150-293) -/

/-- A fixed-size ledger record: a leading `apr_time_t` timestamp and a
call-site-specific payload. -/
structure LedgerEntry (α : Type) where
  time : Nat
  payload : α
  deriving Repr, DecidableEq

/-- The retention/admission callback `totp_file_helper_cb`: given the new
entry, an existing record (or `none` for the final admission query) and the
accumulator, return the keep/accept decision and the updated accumulator. -/
def FileHelperCb (α σ : Type) := LedgerEntry α → Option (LedgerEntry α) → σ → Bool × σ

/-- The scan loop of `totp_check_n_update_file_helper`: records whose
timestamp is in the future relative to the new entry are dropped without
consulting the callback; for the rest the callback decides keep/drop and
updates the accumulator.  Returns the kept records (in order) and the final
accumulator. -/
def processEntries (cb : FileHelperCb α σ) (entry : LedgerEntry α) :
    List (LedgerEntry α) → σ → List (LedgerEntry α) × σ
  | [], s => ([], s)
  | e :: es, s =>
    if e.time ≤ entry.time then
      let r := cb entry (some e) s
      let rest := processEntries cb entry es r.2
      (if r.1 then e :: rest.1 else rest.1, rest.2)
    else processEntries cb entry es s

/-- Function `totp_check_n_update_file_helper` with all I/O succeeding: compact the
existing records through the callback, then query the callback once more with
no existing record to decide whether the new entry itself is appended; the
result is the content of the file that atomically replaces the ledger. -/
def totp_check_n_update_file_helper (cb : FileHelperCb α σ) (entry : LedgerEntry α)
    (existing : List (LedgerEntry α)) (s0 : σ) : List (LedgerEntry α) :=
  let scan := processEntries cb entry existing s0
  let accept := cb entry none scan.2
  scan.1 ++ (if accept.1 then [entry] else [])

/-- A line that the scratch-code phase of the loader accepts: non-blank,
not a directive line, all digits. -/
def isScratchLine (l : List Char) : Bool :=
  decide (l ≠ []) && decide (l.head? ≠ some '"') && l.all isDigitC

/-! Concrete data used to exercise the definitions: a Base32 decoder, a
token store with a handful of users, and the resulting parsed records. -/

/-- Concrete stand-in for the external `base32_decode`. -/
def decodeW : List Char → Option (List Nat) := fun s =>
  if s = "SECRET".toList then some [1, 2, 3, 4, 5]
  else if s = "SECRETC".toList then some [9, 9]
  else none

/-- Concrete token store: per-user credential-record lines. -/
def storeW : String → Option (List (List Char)) := fun u =>
  if u = "alice" then
    some ["\" WINDOW_SIZE 2".toList, "SECRET".toList, "12345678".toList]
  else if u = "dave" then
    some ["\" DISALLOW_REUSE".toList, "SECRET".toList]
  else if u = "bob" then
    some ["\" RATE_LIMIT 1 60".toList, "SECRET".toList]
  else if u = "carol" then
    some ["\" DISALLOW_REUSE".toList, "SECRETC".toList, "11111111".toList,
          "9x9".toList, "22222222".toList]
  else if u = "erin" then
    some ["BADSECRET".toList]
  else none

/-- Concrete environment with both directories configured. -/
def envW : Env :=
  { conf := { tokenDir := some "tokens", stateDir := some "state" },
    store := storeW, decode := decodeW, md5 := fun _ => [0, 255] }

/-- Record the loader produces for user `alice`. -/
def cfgAlice : totp_user_config :=
  { shared_key := some [1, 2, 3, 4, 5], disallow_reuse := false, window_size := 2,
    rate_limit_count := 0, rate_limit_seconds := 0, scratch_codes := [12345678] }

/-- Record the loader produces for user `dave`. -/
def cfgDave : totp_user_config :=
  { shared_key := some [1, 2, 3, 4, 5], disallow_reuse := true, window_size := 0,
    rate_limit_count := 0, rate_limit_seconds := 0, scratch_codes := [] }

/-- Record the loader produces for user `bob`. -/
def cfgBob : totp_user_config :=
  { shared_key := some [1, 2, 3, 4, 5], disallow_reuse := false, window_size := 0,
    rate_limit_count := 1, rate_limit_seconds := 60, scratch_codes := [] }

/-- Concrete retention callback for the ledger examples: keep an existing
record when it is at most 100 ticks older than the new entry, counting the
records seen; accept the new entry while fewer than 2 records were counted. -/
def cbW : FileHelperCb Nat Nat := fun newE oldE s =>
  match oldE with
  | some e => (decide (newE.time - e.time ≤ 100), s + 1)
  | none => (decide (s < 2), s)

/-! Helper lemmas about the offset list and the two scan loops. -/

lemma mem_offsetsList {w : Nat} {i : Int} : i ∈ offsetsList w ↔ i.natAbs ≤ w := by
  unfold offsetsList
  rw [List.mem_map]
  constructor
  · rintro ⟨j, hj, rfl⟩
    rw [List.mem_range] at hj
    show ((j : Int) - (w : Int)).natAbs ≤ w
    omega
  · intro h
    refine ⟨(i + w).toNat, List.mem_range.mpr (by omega), ?_⟩
    show (((i + (w : Int)).toNat : Nat) : Int) - (w : Int) = i
    omega

lemma length_offsetsList (w : Nat) : (offsetsList w).length = 2 * w + 1 := by
  unfold offsetsList
  rw [List.length_map, List.length_range]

lemma offsetsList_sorted (w : Nat) : (offsetsList w).Pairwise (· < ·) := by
  unfold offsetsList
  refine List.Pairwise.map _ ?_ (List.pairwise_lt_range (2 * w + 1))
  intro a b h
  show (a : Int) - (w : Int) < (b : Int) - (w : Int)
  omega

/-- Unfolding equation of `totp_scan` on a cons cell. -/
lemma totp_scan_cons (conf : totp_auth_config_rec) (st : FsState) (user password : String)
    (key : List Nat) (t c : Nat) (i : Int) (rest : List Int) :
    totp_scan conf st user password key t c (i :: rest) =
      if generate_totp_code (stepAt t i) key = c then
        match mark_code_invalid conf st user password with
        | (true, st') => (authn_status.granted, st')
        | (false, st') => (authn_status.denied, st')
      else totp_scan conf st user password key t c rest := rfl

/-- Scanning with the admission marker already present (or the state
directory unset) never grants: the first match breaks out with `denied`
and the state unchanged. -/
lemma totp_scan_blocked {conf : totp_auth_config_rec} {st : FsState}
    {user password : String} {key : List Nat} {t c : Nat}
    (h : conf.stateDir = none ∨ (user, password) ∈ st.markers) :
    ∀ l, totp_scan conf st user password key t c l = (authn_status.denied, st) := by
  intro l
  induction l with
  | nil => rfl
  | cons i rest ih =>
    unfold totp_scan
    by_cases hm : generate_totp_code (stepAt t i) key = c
    · rw [if_pos hm]
      unfold mark_code_invalid
      rcases h with h | h
      · rw [h]
      · rcases hsd : conf.stateDir with _ | d
        · rfl
        · simp [h]
    · rw [if_neg hm]; exact ih

/-- Scanning a list with no matching candidate denies with the state unchanged. -/
lemma totp_scan_no_match {conf : totp_auth_config_rec} {st : FsState}
    {user password : String} {key : List Nat} {t c : Nat} {l : List Int}
    (h : ∀ i ∈ l, generate_totp_code (stepAt t i) key ≠ c) :
    totp_scan conf st user password key t c l = (authn_status.denied, st) := by
  induction l with
  | nil => rfl
  | cons i rest ih =>
    unfold totp_scan
    rw [if_neg (h i (List.mem_cons_self i rest))]
    exact ih (fun j hj => h j (List.mem_cons_of_mem i hj))

/-- Scanning a list with some matching candidate, with the state directory
set and no marker present, grants and records the marker. -/
lemma totp_scan_granted {conf : totp_auth_config_rec} {st : FsState}
    {user password : String} {key : List Nat} {t c : Nat} {l : List Int}
    (hsd : conf.stateDir ≠ none) (hmk : (user, password) ∉ st.markers)
    (h : ∃ i ∈ l, generate_totp_code (stepAt t i) key = c) :
    totp_scan conf st user password key t c l =
      (authn_status.granted, ⟨(user, password) :: st.markers⟩) := by
  induction l with
  | nil => simp at h
  | cons i rest ih =>
    unfold totp_scan
    by_cases hm : generate_totp_code (stepAt t i) key = c
    · rw [if_pos hm]
      unfold mark_code_invalid
      rcases hc : conf.stateDir with _ | d
      · exact absurd hc hsd
      · simp [hmk]
    · rw [if_neg hm]
      rcases h with ⟨j, hj, hjc⟩
      rcases List.mem_cons.mp hj with rfl | hj'
      · exact absurd hjc hm
      · exact ih ⟨j, hj', hjc⟩

/-- A prefix with no matching candidate does not affect the scan. -/
lemma totp_scan_append_no_match {conf : totp_auth_config_rec} {st : FsState}
    {user password : String} {key : List Nat} {t c : Nat} {pre : List Int}
    (h : ∀ j ∈ pre, generate_totp_code (stepAt t j) key ≠ c) (l : List Int) :
    totp_scan conf st user password key t c (pre ++ l) =
      totp_scan conf st user password key t c l := by
  induction pre with
  | nil => rfl
  | cons i rest ih =>
    rw [List.cons_append, totp_scan_cons, if_neg (h i (List.mem_cons_self i rest))]
    exact ih (fun j hj => h j (List.mem_cons_of_mem i hj))

/-- A scan that grants extends the marker list by exactly the (user, password)
marker; in particular the marker was previously absent. -/
lemma totp_scan_granted_inv {conf : totp_auth_config_rec} {st st' : FsState}
    {user password : String} {key : List Nat} {t c : Nat} {l : List Int}
    (h : totp_scan conf st user password key t c l = (authn_status.granted, st')) :
    st'.markers = (user, password) :: st.markers ∧ (user, password) ∉ st.markers := by
  induction l with
  | nil =>
    have h1 : authn_status.denied = authn_status.granted := congrArg Prod.fst h
    exact absurd h1 (by decide)
  | cons i rest ih =>
    rw [totp_scan_cons] at h
    by_cases hm : generate_totp_code (stepAt t i) key = c
    · rw [if_pos hm] at h
      unfold mark_code_invalid at h
      rcases hc : conf.stateDir with _ | d
      · rw [hc] at h
        have h1 : authn_status.denied = authn_status.granted := congrArg Prod.fst h
        exact absurd h1 (by decide)
      · rw [hc] at h
        by_cases hmk : (user, password) ∈ st.markers
        · rw [if_pos hmk] at h
          have h1 : authn_status.denied = authn_status.granted := congrArg Prod.fst h
          exact absurd h1 (by decide)
        · rw [if_neg hmk] at h
          have h2 : (⟨(user, password) :: st.markers⟩ : FsState) = st' := congrArg Prod.snd h
          exact ⟨by rw [← h2], hmk⟩
    · rw [if_neg hm] at h; exact ih h

/-- Scratch-scan analogue of `totp_scan_blocked`. -/
lemma scratch_scan_blocked {conf : totp_auth_config_rec} {st : FsState}
    {user password : String} {c : Nat}
    (h : conf.stateDir = none ∨ (user, password) ∈ st.markers) :
    ∀ l, scratch_scan conf st user password c l = (authn_status.denied, st) := by
  intro l
  induction l with
  | nil => rfl
  | cons x rest ih =>
    unfold scratch_scan
    by_cases hm : x = c
    · rw [if_pos hm]
      unfold mark_code_invalid
      rcases h with h | h
      · rw [h]
      · rcases hsd : conf.stateDir with _ | d
        · rfl
        · simp [h]
    · rw [if_neg hm]; exact ih

/-- Scratch-scan analogue of `totp_scan_granted_inv`. -/
lemma scratch_scan_granted_inv {conf : totp_auth_config_rec} {st st' : FsState}
    {user password : String} {c : Nat} {l : List Nat}
    (h : scratch_scan conf st user password c l = (authn_status.granted, st')) :
    st'.markers = (user, password) :: st.markers ∧ (user, password) ∉ st.markers := by
  induction l with
  | nil =>
    have h1 : authn_status.denied = authn_status.granted := congrArg Prod.fst h
    exact absurd h1 (by decide)
  | cons x rest ih =>
    unfold scratch_scan at h
    by_cases hm : x = c
    · rw [if_pos hm] at h
      unfold mark_code_invalid at h
      rcases hc : conf.stateDir with _ | d
      · rw [hc] at h
        have h1 : authn_status.denied = authn_status.granted := congrArg Prod.fst h
        exact absurd h1 (by decide)
      · rw [hc] at h
        by_cases hmk : (user, password) ∈ st.markers
        · rw [if_pos hmk] at h
          have h1 : authn_status.denied = authn_status.granted := congrArg Prod.fst h
          exact absurd h1 (by decide)
        · rw [if_neg hmk] at h
          have h2 : (⟨(user, password) :: st.markers⟩ : FsState) = st' := congrArg Prod.snd h
          exact ⟨by rw [← h2], hmk⟩
    · rw [if_neg hm] at h; exact ih h

/-- With a valid alphanumeric user, a 6-digit password and a loadable record,
the password check is exactly the TOTP window scan. -/
lemma check_password_eq_totp_scan {env : Env} {st : FsState} {T0 : Nat}
    {user password : String} {cfg : totp_user_config}
    (huser : user.toList.all isAlnumC = true)
    (hlen : password.length = 6)
    (hdig : password.toList.all isDigitC = true)
    (hload : get_user_totp_config env user = some cfg) :
    authn_totp_check_password env st T0 user password =
      ((totp_scan env.conf st user password (cfg.shared_key.getD []) T0
          (apr_atoi64d password.toList % 2 ^ 32) (offsetsList cfg.window_size)).1,
       (totp_scan env.conf st user password (cfg.shared_key.getD []) T0
          (apr_atoi64d password.toList % 2 ^ 32) (offsetsList cfg.window_size)).2,
       true) := by
  unfold authn_totp_check_password
  rw [if_neg (not_not_intro huser), if_neg (not_not_intro ⟨Or.inl hlen, hdig⟩), hload]
  dsimp only
  rw [if_pos hlen]

/-- A password check that grants pushed exactly the (user, password) marker
onto the state directory; in particular the marker was previously absent. -/
lemma check_password_granted_markers {env : Env} {st st1 : FsState} {T0 : Nat}
    {user password : String} {b : Bool}
    (h : authn_totp_check_password env st T0 user password =
      (authn_status.granted, st1, b)) :
    st1.markers = (user, password) :: st.markers ∧ (user, password) ∉ st.markers := by
  unfold authn_totp_check_password at h
  by_cases hu : user.toList.all isAlnumC = true
  · rw [if_neg (not_not_intro hu)] at h
    by_cases hp : (password.length = 6 ∨ password.length = 8) ∧
        password.toList.all isDigitC = true
    · rw [if_neg (not_not_intro hp)] at h
      rcases hload : get_user_totp_config env user with _ | cfg
      · rw [hload] at h
        have h1 : authn_status.denied = authn_status.granted := congrArg Prod.fst h
        exact absurd h1 (by decide)
      · rw [hload] at h
        dsimp only at h
        by_cases hl6 : password.length = 6
        · rw [if_pos hl6] at h
          have h1 := congrArg Prod.fst h
          have h2 := congrArg (fun p => p.2.1) h
          exact totp_scan_granted_inv (Prod.ext_iff.mpr ⟨h1, h2⟩)
        · rw [if_neg hl6] at h
          have h1 := congrArg Prod.fst h
          have h2 := congrArg (fun p => p.2.1) h
          exact scratch_scan_granted_inv (Prod.ext_iff.mpr ⟨h1, h2⟩)
    · rw [if_pos hp] at h
      have h1 : authn_status.denied = authn_status.granted := congrArg Prod.fst h
      exact absurd h1 (by decide)
  · rw [if_pos hu] at h
    have h1 : authn_status.denied = authn_status.granted := congrArg Prod.fst h
    exact absurd h1 (by decide)

/-- With the (user, password) marker already present in the state directory,
the password check always denies: a matching code breaks out of the scan at
`mark_code_invalid`, and everything else denies anyway. -/
lemma check_password_blocked {env : Env} {st : FsState} {T0 : Nat}
    {user password : String}
    (hmk : (user, password) ∈ st.markers) :
    (authn_totp_check_password env st T0 user password).1 = authn_status.denied := by
  unfold authn_totp_check_password
  by_cases hu : user.toList.all isAlnumC = true
  · rw [if_neg (not_not_intro hu)]
    by_cases hp : (password.length = 6 ∨ password.length = 8) ∧
        password.toList.all isDigitC = true
    · rw [if_neg (not_not_intro hp)]
      rcases hload : get_user_totp_config env user with _ | cfg
      · rfl
      · dsimp only
        by_cases hl6 : password.length = 6
        · rw [if_pos hl6, totp_scan_blocked (Or.inr hmk)]
        · rw [if_neg hl6, scratch_scan_blocked (Or.inr hmk)]
    · rw [if_pos hp]
  · rw [if_pos hu]

/-- Unfolding equation of `scratch_scan` on a cons cell. -/
lemma scratch_scan_cons (conf : totp_auth_config_rec) (st : FsState) (user password : String)
    (c : Nat) (x : Nat) (rest : List Nat) :
    scratch_scan conf st user password c (x :: rest) =
      if x = c then
        match mark_code_invalid conf st user password with
        | (true, st') => (authn_status.granted, st')
        | (false, st') => (authn_status.denied, st')
      else scratch_scan conf st user password c rest := rfl

/-- A prefix of non-matching scratch codes does not affect the scan. -/
lemma scratch_scan_append_no_match {conf : totp_auth_config_rec} {st : FsState}
    {user password : String} {c : Nat} {pre : List Nat}
    (h : ∀ x ∈ pre, x ≠ c) (l : List Nat) :
    scratch_scan conf st user password c (pre ++ l) =
      scratch_scan conf st user password c l := by
  induction pre with
  | nil => rfl
  | cons x rest ih =>
    rw [List.cons_append, scratch_scan_cons, if_neg (h x (List.mem_cons_self x rest))]
    exact ih (fun y hy => h y (List.mem_cons_of_mem x hy))

/-- Admission fails, leaving the state unchanged, when the marker exists or
the state directory is unset. -/
lemma mark_code_invalid_blocked {conf : totp_auth_config_rec} {st : FsState}
    {user password : String}
    (h : (user, password) ∈ st.markers ∨ conf.stateDir = none) :
    mark_code_invalid conf st user password = (false, st) := by
  unfold mark_code_invalid
  rcases hc : conf.stateDir with _ | d
  · rfl
  · rcases h with h | h
    · rw [if_pos h]
    · rw [hc] at h; exact absurd h (by simp)

/-! Claim theorems. -/

/-- C4.  Code generator correctness: `generate_totp_code` (a pure function,
hence deterministic) always returns a value in [0, 999999]; and on the
RFC 4226 test vector — the 20 ASCII bytes `"12345678901234567890"` as secret
and time-step `T = 1` — it returns 287082, which pins down the byte encoding,
HMAC-SHA1, dynamic truncation, sign-bit mask and modulus. -/
theorem C4_generator_range_and_vector :
    (∀ (challenge : Nat) (secret : List Nat),
      generate_totp_code challenge secret < 1000000) ∧
    generate_totp_code 1 ("12345678901234567890".toList.map Char.toNat) = 287082 := by
  constructor
  · intro c s
    exact Nat.mod_lt _ (by norm_num)
  · decide

/-- C5.  Format property: a password that is not exactly 6 or 8 characters
long, or contains a non-digit character, is denied with the state unchanged
and without the credential store ever being consulted (the returned flag
records whether `get_user_totp_config` was invoked). -/
theorem C5_format_denied_without_lookup (env : Env) (st : FsState) (T0 : Nat)
    (user password : String)
    (h : (password.length ≠ 6 ∧ password.length ≠ 8) ∨
      ∃ c ∈ password.toList, isDigitC c = false) :
    authn_totp_check_password env st T0 user password = (authn_status.denied, st, false) := by
  have hcond : ¬ ((password.length = 6 ∨ password.length = 8) ∧
      password.toList.all isDigitC = true) := by
    rcases h with ⟨h6, h8⟩ | ⟨c, hc, hcd⟩
    · rintro ⟨h1 | h1, -⟩
      · exact h6 h1
      · exact h8 h1
    · rintro ⟨-, hall⟩
      rw [List.all_eq_true] at hall
      have hct := hall c hc
      rw [hcd] at hct
      exact absurd hct (by decide)
  unfold authn_totp_check_password
  by_cases hu : user.toList.all isAlnumC = true
  · rw [if_neg (not_not_intro hu), if_pos hcond]
  · rw [if_pos hu]

/-- C5 witness: a 5-character password is denied without a store lookup. -/
theorem C5_witness :
    authn_totp_check_password envW ⟨[]⟩ 1000 "alice" "12345" =
      (authn_status.denied, ⟨[]⟩, false) :=
  C5_format_denied_without_lookup envW ⟨[]⟩ 1000 "alice" "12345" (Or.inl (by decide))

/-- C1.  Window property of the password-check verdict: with a loadable
record, a valid user name and a 6-digit all-digit password, (i) the scanned
offset list is `-w..w` in ascending order with `2*w+1` candidates; (ii) if the
password equals the candidate at some offset `k` with `|k| ≤ w` and no
restriction blocks admission (state directory set, no marker for this
(user, password) pair), the verdict is Granted; (iii) if no offset within the
window matches, the verdict is Denied; (iv) the scan is settled by the first
matching offset — candidates after it are never examined. -/
theorem C1_window_scan_verdict (env : Env) (st : FsState) (T0 : Nat)
    (user password : String) (cfg : totp_user_config)
    (hload : get_user_totp_config env user = some cfg)
    (huser : user.toList.all isAlnumC = true)
    (hlen : password.length = 6)
    (hdig : password.toList.all isDigitC = true) :
    (offsetsList cfg.window_size).length = 2 * cfg.window_size + 1 ∧
    (offsetsList cfg.window_size).Pairwise (· < ·) ∧
    ((∃ k : Int, k.natAbs ≤ cfg.window_size ∧
        generate_totp_code (stepAt T0 k) (cfg.shared_key.getD []) =
          apr_atoi64d password.toList % 2 ^ 32) →
      env.conf.stateDir ≠ none → (user, password) ∉ st.markers →
      (authn_totp_check_password env st T0 user password).1 = authn_status.granted) ∧
    ((∀ k : Int, k.natAbs ≤ cfg.window_size →
        generate_totp_code (stepAt T0 k) (cfg.shared_key.getD []) ≠
          apr_atoi64d password.toList % 2 ^ 32) →
      (authn_totp_check_password env st T0 user password).1 = authn_status.denied) ∧
    (∀ (pre : List Int) (i : Int) (post post' : List Int),
      offsetsList cfg.window_size = pre ++ i :: post →
      (∀ j ∈ pre, generate_totp_code (stepAt T0 j) (cfg.shared_key.getD []) ≠
        apr_atoi64d password.toList % 2 ^ 32) →
      generate_totp_code (stepAt T0 i) (cfg.shared_key.getD []) =
        apr_atoi64d password.toList % 2 ^ 32 →
      totp_scan env.conf st user password (cfg.shared_key.getD []) T0
          (apr_atoi64d password.toList % 2 ^ 32) (pre ++ i :: post) =
        totp_scan env.conf st user password (cfg.shared_key.getD []) T0
          (apr_atoi64d password.toList % 2 ^ 32) (pre ++ i :: post')) := by
  refine ⟨length_offsetsList _, offsetsList_sorted _, ?_, ?_, ?_⟩
  · rintro ⟨k, hk, hgen⟩ hsd hmk
    rw [check_password_eq_totp_scan huser hlen hdig hload]
    rw [totp_scan_granted hsd hmk ⟨k, mem_offsetsList.mpr hk, hgen⟩]
  · intro hno
    rw [check_password_eq_totp_scan huser hlen hdig hload]
    rw [totp_scan_no_match (fun i hi => hno i (mem_offsetsList.mp hi))]
  · intro pre i post post' _ hpre hi
    rw [totp_scan_append_no_match hpre, totp_scan_append_no_match hpre,
      totp_scan_cons, totp_scan_cons, if_pos hi, if_pos hi]

/-- C1 witness: for `alice` (window size 2) the code for offset 0 at
time-step 1000 is granted on a fresh state. -/
theorem C1_witness :
    (authn_totp_check_password envW ⟨[]⟩ 1000 "alice" "744338").1 =
      authn_status.granted :=
  (C1_window_scan_verdict envW ⟨[]⟩ 1000 "alice" "744338" cfgAlice
      (by decide) (by decide) (by decide) (by decide)).2.2.1
    ⟨0, by decide, by decide⟩ (by decide) (by decide)

/-- C2.  Reuse property: for a user whose record sets `disallow_reuse`,
(i) once an attempt with some code is Granted, presenting the identical code
for the same user again — at any later time-step, hence anywhere within any
retention horizon — is Denied; (ii) even when the presented code matches a
candidate inside the window, a blocked admission (marker already present)
makes the overall verdict Denied. -/
theorem C2_reuse_denied (env : Env) (st : FsState) (T0 : Nat)
    (user password : String) (cfg : totp_user_config)
    (hload : get_user_totp_config env user = some cfg)
    (hreuse : cfg.disallow_reuse = true) :
    (∀ (st1 : FsState) (b : Bool) (T1 : Nat),
      authn_totp_check_password env st T0 user password =
        (authn_status.granted, st1, b) →
      (authn_totp_check_password env st1 T1 user password).1 = authn_status.denied) ∧
    ((∃ k : Int, k.natAbs ≤ cfg.window_size ∧
        generate_totp_code (stepAt T0 k) (cfg.shared_key.getD []) =
          apr_atoi64d password.toList % 2 ^ 32) →
      (user, password) ∈ st.markers →
      (authn_totp_check_password env st T0 user password).1 = authn_status.denied) := by
  constructor
  · intro st1 b T1 h
    have hm := (check_password_granted_markers h).1
    exact check_password_blocked (by rw [hm]; exact List.mem_cons_self _ _)
  · intro _ hmk
    exact check_password_blocked hmk

/-- C2 witness: `dave` has `DISALLOW_REUSE`; the code for time-step 1000 is
granted once and the identical presentation is then denied. -/
theorem C2_witness :
    authn_totp_check_password envW ⟨[]⟩ 1000 "dave" "744338" =
      (authn_status.granted, ⟨[("dave", "744338")]⟩, true) ∧
    (authn_totp_check_password envW ⟨[("dave", "744338")]⟩ 1000 "dave" "744338").1 =
      authn_status.denied :=
  ⟨by decide,
   (C2_reuse_denied envW ⟨[]⟩ 1000 "dave" "744338" cfgDave (by decide) (by decide)).1
     ⟨[("dave", "744338")]⟩ true 1000 (by decide)⟩

/-- C10.  One-time admission is unconditional: `mark_code_invalid` is called
on every match with an exclusive-create contract, regardless of the
`disallow_reuse` flag (the theorem has no hypothesis on it): (i) any Granted
attempt records the (user, password) marker and every later presentation of
the same pair is Denied; (ii) in the TOTP scan, the first matching offset
whose admission fails settles the attempt as Denied with the state unchanged,
and candidates after it are never examined; (iii) likewise for the
scratch-code scan. -/
theorem C10_unconditional_one_time (env : Env) (st : FsState) (T0 : Nat)
    (user password : String) (cfg : totp_user_config)
    (hload : get_user_totp_config env user = some cfg) :
    (∀ (st1 : FsState) (b : Bool),
      authn_totp_check_password env st T0 user password =
        (authn_status.granted, st1, b) →
      (user, password) ∈ st1.markers ∧
      ∀ T1 : Nat,
        (authn_totp_check_password env st1 T1 user password).1 = authn_status.denied) ∧
    (∀ (key : List Nat) (tc : Nat) (pre : List Int) (i : Int) (post post' : List Int),
      (∀ j ∈ pre, generate_totp_code (stepAt T0 j) key ≠ tc) →
      generate_totp_code (stepAt T0 i) key = tc →
      ((user, password) ∈ st.markers ∨ env.conf.stateDir = none) →
      totp_scan env.conf st user password key T0 tc (pre ++ i :: post) =
        (authn_status.denied, st) ∧
      totp_scan env.conf st user password key T0 tc (pre ++ i :: post) =
        totp_scan env.conf st user password key T0 tc (pre ++ i :: post')) ∧
    (∀ (tc : Nat) (pre : List Nat) (x : Nat) (post post' : List Nat),
      (∀ y ∈ pre, y ≠ tc) → x = tc →
      ((user, password) ∈ st.markers ∨ env.conf.stateDir = none) →
      scratch_scan env.conf st user password tc (pre ++ x :: post) =
        (authn_status.denied, st) ∧
      scratch_scan env.conf st user password tc (pre ++ x :: post) =
        scratch_scan env.conf st user password tc (pre ++ x :: post')) := by
  refine ⟨?_, ?_, ?_⟩
  · intro st1 b h
    have hm := (check_password_granted_markers h).1
    have hmem : (user, password) ∈ st1.markers := by
      rw [hm]; exact List.mem_cons_self _ _
    exact ⟨hmem, fun T1 => check_password_blocked hmem⟩
  · intro key tc pre i post post' hpre hi hblk
    have hstep : totp_scan env.conf st user password key T0 tc (i :: post) =
        (authn_status.denied, st) := by
      rw [totp_scan_cons, if_pos hi, mark_code_invalid_blocked hblk]
    have hstep' : totp_scan env.conf st user password key T0 tc (i :: post') =
        (authn_status.denied, st) := by
      rw [totp_scan_cons, if_pos hi, mark_code_invalid_blocked hblk]
    rw [totp_scan_append_no_match hpre, totp_scan_append_no_match hpre, hstep, hstep']
    exact ⟨rfl, rfl⟩
  · intro tc pre x post post' hpre hx hblk
    have hstep : scratch_scan env.conf st user password tc (x :: post) =
        (authn_status.denied, st) := by
      rw [scratch_scan_cons, if_pos hx, mark_code_invalid_blocked hblk]
    have hstep' : scratch_scan env.conf st user password tc (x :: post') =
        (authn_status.denied, st) := by
      rw [scratch_scan_cons, if_pos hx, mark_code_invalid_blocked hblk]
    rw [scratch_scan_append_no_match hpre, scratch_scan_append_no_match hpre, hstep, hstep']
    exact ⟨rfl, rfl⟩

/-- C10 witness: `alice` does not set `DISALLOW_REUSE`, yet her granted
scratch code is denied on re-presentation; and a blocked first match settles
the scan regardless of the remaining candidates. -/
theorem C10_witness :
    authn_totp_check_password envW ⟨[]⟩ 1000 "alice" "12345678" =
      (authn_status.granted, ⟨[("alice", "12345678")]⟩, true) ∧
    (authn_totp_check_password envW ⟨[("alice", "12345678")]⟩ 1005 "alice" "12345678").1 =
      authn_status.denied ∧
    scratch_scan envW.conf ⟨[("alice", "12345678")]⟩ "alice" "12345678" 12345678
        [12345678, 99, 100] = (authn_status.denied, ⟨[("alice", "12345678")]⟩) :=
  ⟨by decide,
   ((C10_unconditional_one_time envW ⟨[]⟩ 1000 "alice" "12345678" cfgAlice (by decide)).1
      ⟨[("alice", "12345678")]⟩ true (by decide)).2 1005,
   ((C10_unconditional_one_time envW ⟨[("alice", "12345678")]⟩ 1000 "alice" "12345678"
      cfgAlice (by decide)).2.2 12345678 [] 12345678 [99, 100] []
      (by simp) rfl (Or.inl (by decide))).1⟩

/-- C9.  Realm-hash variant: it takes no presented secret (its signature has
none to compare); with a loadable record it returns `AUTH_USER_FOUND` and the
hex-encoded `apr_md5` hash of `user:realm:code` where `code` is the single
current candidate at offset `i = 0` (no window search), leaving the state
directory untouched; with an unloadable record it returns
`AUTH_USER_NOT_FOUND`, whereas the password-check path returns Denied
uniformly on load failure; and verdict and hash never depend on the
admission-ledger state. -/
theorem C9_realm_hash_variant (env : Env) (st : FsState) (T0 : Nat)
    (user realm password : String) (cfg : totp_user_config) :
    (get_user_totp_config env user = some cfg →
      authn_totp_get_realm_hash env st T0 user realm =
        (authn_status.userFound,
         some (hex_encode (env.md5 (user.toList ++ [':'] ++ realm.toList ++ [':'] ++
           pad6 (generate_totp_code (stepAt T0 0) (cfg.shared_key.getD []))))),
         st)) ∧
    (get_user_totp_config env user = none →
      authn_totp_get_realm_hash env st T0 user realm =
        (authn_status.userNotFound, none, st)) ∧
    (get_user_totp_config env user = none →
      user.toList.all isAlnumC = true →
      (password.length = 6 ∨ password.length = 8) →
      password.toList.all isDigitC = true →
      authn_totp_check_password env st T0 user password =
        (authn_status.denied, st, true)) ∧
    (∀ st1 st2 : FsState,
      (authn_totp_get_realm_hash env st1 T0 user realm).1 =
        (authn_totp_get_realm_hash env st2 T0 user realm).1 ∧
      (authn_totp_get_realm_hash env st1 T0 user realm).2.1 =
        (authn_totp_get_realm_hash env st2 T0 user realm).2.1 ∧
      (authn_totp_get_realm_hash env st1 T0 user realm).2.2 = st1) := by
  refine ⟨?_, ?_, ?_, ?_⟩
  · intro hload
    unfold authn_totp_get_realm_hash
    rw [hload]
  · intro hnone
    unfold authn_totp_get_realm_hash
    rw [hnone]
  · intro hnone hu hl hd
    unfold authn_totp_check_password
    rw [if_neg (not_not_intro hu), if_neg (not_not_intro ⟨hl, hd⟩), hnone]
  · intro st1 st2
    unfold authn_totp_get_realm_hash
    rcases get_user_totp_config env user with _ | cfg' <;> exact ⟨rfl, rfl, rfl⟩

/-- C9 witness: `alice` loads (hash of the current code returned, state
untouched); `zed` does not load (realm hash reports user-not-found, the
password check reports denied). -/
theorem C9_witness :
    authn_totp_get_realm_hash envW ⟨[]⟩ 1000 "alice" "realm1" =
      (authn_status.userFound,
       some (hex_encode (envW.md5 ("alice".toList ++ [':'] ++ "realm1".toList ++ [':'] ++
         pad6 (generate_totp_code (stepAt 1000 0) (cfgAlice.shared_key.getD []))))),
       ⟨[]⟩) ∧
    authn_totp_get_realm_hash envW ⟨[]⟩ 1000 "zed" "realm1" =
      (authn_status.userNotFound, none, ⟨[]⟩) ∧
    authn_totp_check_password envW ⟨[]⟩ 1000 "zed" "123456" =
      (authn_status.denied, ⟨[]⟩, true) :=
  ⟨(C9_realm_hash_variant envW ⟨[]⟩ 1000 "alice" "realm1" "123456" cfgAlice).1 (by decide),
   (C9_realm_hash_variant envW ⟨[]⟩ 1000 "zed" "realm1" "123456" cfgAlice).2.1 (by decide),
   (C9_realm_hash_variant envW ⟨[]⟩ 1000 "zed" "realm1" "123456" cfgAlice).2.2.1
     (by decide) (by decide) (Or.inl (by decide)) (by decide)⟩

/-- C7.  Credential-loader clamping: a `WINDOW_SIZE` directive with an
all-digit value sets `window_size` to the value clamped into [0, 32], and a
non-digit value leaves the record unchanged; a `RATE_LIMIT` directive with
all-digit values clamps the count into [0, 5] and the seconds into [30, 300];
a non-digit seconds value forces the count to 0 (rate limiting fully
disabled), whatever happened to the count value. -/
theorem C7_directive_clamping (cfg : totp_user_config) (lineW lineR : List Char)
    (v v1 v2 : List Char) (vs us : List (List Char))
    (hW : splitSp (lineW.drop 2) = "WINDOW_SIZE".toList :: v :: vs)
    (hR : splitSp (lineR.drop 2) = "RATE_LIMIT".toList :: v1 :: v2 :: us) :
    (v.all isDigitC = true →
      processDirective cfg lineW = { cfg with window_size := min (apr_atoi64d v) 32 } ∧
      (processDirective cfg lineW).window_size ≤ 32) ∧
    ((∃ c ∈ v, isDigitC c = false) → processDirective cfg lineW = cfg) ∧
    (v1.all isDigitC = true → v2.all isDigitC = true →
      processDirective cfg lineR =
        { cfg with rate_limit_count := min (apr_atoi64d v1) 5,
                   rate_limit_seconds := max 30 (min (apr_atoi64d v2) 300) } ∧
      (processDirective cfg lineR).rate_limit_count ≤ 5 ∧
      30 ≤ (processDirective cfg lineR).rate_limit_seconds ∧
      (processDirective cfg lineR).rate_limit_seconds ≤ 300) ∧
    ((∃ c ∈ v2, isDigitC c = false) →
      (processDirective cfg lineR).rate_limit_count = 0) := by
  have hWD : ("WINDOW_SIZE".toList = "DISALLOW_REUSE".toList) = False := by decide
  have hRD : ("RATE_LIMIT".toList = "DISALLOW_REUSE".toList) = False := by decide
  have hRW : ("RATE_LIMIT".toList = "WINDOW_SIZE".toList) = False := by decide
  refine ⟨?_, ?_, ?_, ?_⟩
  · intro hd
    have heq : processDirective cfg lineW =
        { cfg with window_size := min (apr_atoi64d v) 32 } := by
      unfold processDirective
      rw [hW]
      dsimp only
      rw [if_neg (by decide), if_pos rfl, if_pos hd, Nat.zero_max]
    refine ⟨heq, ?_⟩
    rw [heq]
    exact Nat.min_le_right _ _
  · rintro ⟨c, hc, hcd⟩
    have hnd : ¬ (v.all isDigitC = true) := by
      intro hall
      rw [List.all_eq_true] at hall
      have hct := hall c hc
      rw [hcd] at hct
      exact absurd hct (by decide)
    unfold processDirective
    rw [hW]
    dsimp only
    rw [if_neg (by decide), if_pos rfl, if_neg hnd]
  · intro h1 h2
    have heq : processDirective cfg lineR =
        { cfg with rate_limit_count := min (apr_atoi64d v1) 5,
                   rate_limit_seconds := max 30 (min (apr_atoi64d v2) 300) } := by
      unfold processDirective
      rw [hR]
      dsimp only
      rw [if_neg (by decide), if_neg (by decide), if_pos rfl, if_pos h1, if_pos h2,
        Nat.zero_max]
    refine ⟨heq, ?_, ?_, ?_⟩ <;> rw [heq]
    · exact Nat.min_le_right _ _
    · exact Nat.le_max_left _ _
    · exact Nat.max_le.mpr ⟨by norm_num, Nat.min_le_right _ _⟩
  · rintro ⟨c, hc, hcd⟩
    have hnd : ¬ (v2.all isDigitC = true) := by
      intro hall
      rw [List.all_eq_true] at hall
      have hct := hall c hc
      rw [hcd] at hct
      exact absurd hct (by decide)
    unfold processDirective
    rw [hR]
    dsimp only
    rw [if_neg (by decide), if_neg (by decide), if_pos rfl, if_neg hnd]

/-- C7 witness: an oversized window value clamps to 32; a non-digit window
value leaves the default; `RATE_LIMIT 7 10` clamps to count 5 and seconds 30;
a non-digit seconds value zeroes the count. -/
theorem C7_witness :
    processDirective initUserConfig ("\" WINDOW_SIZE 99".toList) =
      { initUserConfig with window_size := 32 } ∧
    processDirective initUserConfig ("\" WINDOW_SIZE 9x".toList) = initUserConfig ∧
    processDirective initUserConfig ("\" RATE_LIMIT 7 10".toList) =
      { initUserConfig with rate_limit_count := 5, rate_limit_seconds := 30 } ∧
    (processDirective initUserConfig ("\" RATE_LIMIT 3 abc".toList)).rate_limit_count = 0 :=
  ⟨((C7_directive_clamping initUserConfig ("\" WINDOW_SIZE 99".toList)
        ("\" RATE_LIMIT 7 10".toList) ("99".toList) ("7".toList) ("10".toList) [] []
        (by decide) (by decide)).1 (by decide)).1.trans (by decide),
   (C7_directive_clamping initUserConfig ("\" WINDOW_SIZE 9x".toList)
        ("\" RATE_LIMIT 3 abc".toList) ("9x".toList) ("3".toList) ("abc".toList) [] []
        (by decide) (by decide)).2.1 ⟨'x', by decide, by decide⟩,
   (((C7_directive_clamping initUserConfig ("\" WINDOW_SIZE 99".toList)
        ("\" RATE_LIMIT 7 10".toList) ("99".toList) ("7".toList) ("10".toList) [] []
        (by decide) (by decide)).2.2.1 (by decide) (by decide)).1).trans (by decide),
   (C7_directive_clamping initUserConfig ("\" WINDOW_SIZE 9x".toList)
        ("\" RATE_LIMIT 3 abc".toList) ("9x".toList) ("3".toList) ("abc".toList) [] []
        (by decide) (by decide)).2.2.2 ⟨'a', by decide, by decide⟩⟩

/-- Unfolding equation of `processEntries` on a cons cell. -/
lemma processEntries_cons {α σ : Type} (cb : FileHelperCb α σ) (entry e : LedgerEntry α)
    (es : List (LedgerEntry α)) (s : σ) :
    processEntries cb entry (e :: es) s =
      if e.time ≤ entry.time then
        ((if (cb entry (some e) s).1
            then e :: (processEntries cb entry es (cb entry (some e) s).2).1
            else (processEntries cb entry es (cb entry (some e) s).2).1),
         (processEntries cb entry es (cb entry (some e) s).2).2)
      else processEntries cb entry es s := rfl

/-- The kept records form a subsequence of the existing records. -/
lemma processEntries_sublist {α σ : Type} (cb : FileHelperCb α σ) (entry : LedgerEntry α) :
    ∀ (es : List (LedgerEntry α)) (s : σ), (processEntries cb entry es s).1.Sublist es := by
  intro es
  induction es with
  | nil => intro s; exact List.Sublist.refl _
  | cons e es ih =>
    intro s
    rw [processEntries_cons]
    by_cases ht : e.time ≤ entry.time
    · rw [if_pos ht]
      dsimp only
      by_cases hk : (cb entry (some e) s).1 = true
      · rw [if_pos hk]
        exact (ih _).cons₂ e
      · rw [if_neg hk]
        exact (ih _).cons e
    · rw [if_neg ht]
      exact (ih s).cons e

/-- Every kept record's timestamp is at most the new entry's timestamp. -/
lemma processEntries_time {α σ : Type} (cb : FileHelperCb α σ) (entry : LedgerEntry α) :
    ∀ (es : List (LedgerEntry α)) (s : σ),
      ∀ x ∈ (processEntries cb entry es s).1, x.time ≤ entry.time := by
  intro es
  induction es with
  | nil => intro s x hx; exact absurd hx (by simp [processEntries])
  | cons e es ih =>
    intro s x hx
    rw [processEntries_cons] at hx
    by_cases ht : e.time ≤ entry.time
    · rw [if_pos ht] at hx
      dsimp only at hx
      by_cases hk : (cb entry (some e) s).1 = true
      · rw [if_pos hk] at hx
        rcases List.mem_cons.mp hx with rfl | hx'
        · exact ht
        · exact ih _ x hx'
      · rw [if_neg hk] at hx
        exact ih _ x hx
    · rw [if_neg ht] at hx
      exact ih s x hx

/-- The scan depends on the callback only through its existing-record calls:
two callbacks agreeing on `some`-queries compact identically.  (The final
admission query is made after the scan.) -/
lemma processEntries_cb_congr {α σ : Type} (cb cb' : FileHelperCb α σ)
    (entry : LedgerEntry α)
    (h : ∀ (a e : LedgerEntry α) (s : σ), cb a (some e) s = cb' a (some e) s) :
    ∀ (es : List (LedgerEntry α)) (s : σ),
      processEntries cb entry es s = processEntries cb' entry es s := by
  intro es
  induction es with
  | nil => intro s; rfl
  | cons e es ih =>
    intro s
    rw [processEntries_cons, processEntries_cons]
    by_cases ht : e.time ≤ entry.time
    · rw [if_pos ht, if_pos ht, ← h entry e s, ih ((cb entry (some e) s).2)]
    · rw [if_neg ht, if_neg ht]
      exact ih s

/-- C6.  Ledger retention invariant: a completed transaction produces exactly
the kept records of the scan — a subsequence of the previously existing
records, unmodified and in original order, none of them future-dated relative
to the new entry — followed by the new entry exactly when the final admission
query accepts it; and the kept part is computed the same way whatever the
admission query answers (pruning happens regardless of admission). -/
theorem C6_ledger_retention {α σ : Type} (cb : FileHelperCb α σ)
    (entry : LedgerEntry α) (existing : List (LedgerEntry α)) (s0 : σ) :
    totp_check_n_update_file_helper cb entry existing s0 =
      (processEntries cb entry existing s0).1 ++
        (if (cb entry none (processEntries cb entry existing s0).2).1
          then [entry] else []) ∧
    (processEntries cb entry existing s0).1.Sublist existing ∧
    (∀ e ∈ (processEntries cb entry existing s0).1, e.time ≤ entry.time) ∧
    (∀ cb' : FileHelperCb α σ,
      (∀ (a e : LedgerEntry α) (s : σ), cb a (some e) s = cb' a (some e) s) →
      processEntries cb entry existing s0 = processEntries cb' entry existing s0) :=
  ⟨rfl, processEntries_sublist cb entry existing s0,
   processEntries_time cb entry existing s0,
   fun cb' h => processEntries_cb_congr cb cb' entry h existing s0⟩

/-- C6 witness: with a horizon of 100 ticks, an in-horizon record is kept, a
future-dated record is dropped, and the new entry is appended. -/
theorem C6_witness :
    totp_check_n_update_file_helper cbW ⟨1000, 0⟩ [⟨950, 1⟩, ⟨1200, 3⟩] 0 =
      (processEntries cbW ⟨1000, 0⟩ [⟨950, 1⟩, ⟨1200, 3⟩] 0).1 ++
        (if (cbW ⟨1000, 0⟩ none (processEntries cbW ⟨1000, 0⟩ [⟨950, 1⟩, ⟨1200, 3⟩] 0).2).1
          then [⟨1000, 0⟩] else []) ∧
    (processEntries cbW ⟨1000, 0⟩ [⟨950, 1⟩, ⟨1200, 3⟩] 0).1.Sublist
      [⟨950, 1⟩, ⟨1200, 3⟩] ∧
    (⟨950, 1⟩ : LedgerEntry Nat).time ≤ (1000 : Nat) ∧
    totp_check_n_update_file_helper cbW ⟨1000, 0⟩ [⟨950, 1⟩, ⟨1200, 3⟩] 0 =
      [⟨950, 1⟩, ⟨1000, 0⟩] :=
  ⟨(C6_ledger_retention cbW ⟨1000, 0⟩ [⟨950, 1⟩, ⟨1200, 3⟩] 0).1,
   (C6_ledger_retention cbW ⟨1000, 0⟩ [⟨950, 1⟩, ⟨1200, 3⟩] 0).2.1,
   (C6_ledger_retention cbW ⟨1000, 0⟩ [⟨950, 1⟩, ⟨1200, 3⟩] 0).2.2.1 ⟨950, 1⟩ (by decide),
   by decide⟩

/-- C3 (code bug).  Rate limiting is never enforced by the password check:
user `bob` loads with `rate_limit_count = 1` and `rate_limit_seconds = 60`,
yet a second admission attempt 30 seconds (one time-step) after a granted
first attempt — well inside the 60-second window — is Granted again, where
the claim requires the (N+1)-th = 2nd in-window attempt to be Denied.
`authn_totp_check_password` never reads the rate-limit fields. -/
theorem C3_rate_limit_not_enforced :
    (get_user_totp_config envW "bob" = some cfgBob ∧
      cfgBob.rate_limit_count = 1 ∧ cfgBob.rate_limit_seconds = 60) ∧
    authn_totp_check_password envW ⟨[]⟩ 1000 "bob" "744338" =
      (authn_status.granted, ⟨[("bob", "744338")]⟩, true) ∧
    authn_totp_check_password envW ⟨[("bob", "744338")]⟩ 1001 "bob" "285501" =
      (authn_status.granted, ⟨[("bob", "285501"), ("bob", "744338")]⟩, true) :=
  ⟨⟨by decide, rfl, rfl⟩, by decide, by decide⟩

/-- Unfolding equation of `processLines` on a cons cell. -/
lemma processLines_cons (decode : List Char → Option (List Nat))
    (cfg : totp_user_config) (l : List Char) (ls : List (List Char)) :
    processLines decode cfg (l :: ls) =
      match processLine decode cfg l with
      | none => none
      | some cfg' => processLines decode cfg' ls := rfl

/-- Splitting `processLines` at a list append. -/
lemma processLines_append (decode : List Char → Option (List Nat))
    (xs ys : List (List Char)) :
    ∀ cfg : totp_user_config,
      processLines decode cfg (xs ++ ys) =
        match processLines decode cfg xs with
        | none => none
        | some c => processLines decode c ys := by
  induction xs with
  | nil => intro cfg; rfl
  | cons l ls ih =>
    intro cfg
    rw [List.cons_append, processLines_cons, processLines_cons]
    rcases processLine decode cfg l with _ | c
    · rfl
    · exact ih c

/-- Directive processing never touches the shared key or the scratch codes. -/
lemma processDirective_preserves (cfg : totp_user_config) (line : List Char) :
    (processDirective cfg line).shared_key = cfg.shared_key ∧
    (processDirective cfg line).scratch_codes = cfg.scratch_codes := by
  unfold processDirective
  rcases splitSp (line.drop 2) with _ | ⟨t, rest⟩
  · exact ⟨rfl, rfl⟩
  · dsimp only
    by_cases h1 : t = "DISALLOW_REUSE".toList
    · rw [if_pos h1]; exact ⟨rfl, rfl⟩
    · rw [if_neg h1]
      by_cases h2 : t = "WINDOW_SIZE".toList
      · rw [if_pos h2]
        rcases rest with _ | ⟨v, vs⟩
        · exact ⟨rfl, rfl⟩
        · dsimp only
          by_cases h3 : v.all isDigitC = true
          · rw [if_pos h3]; exact ⟨rfl, rfl⟩
          · rw [if_neg h3]; exact ⟨rfl, rfl⟩
      · rw [if_neg h2]
        by_cases h4 : t = "RATE_LIMIT".toList
        · rw [if_pos h4]
          rcases rest with _ | ⟨v1, rest2⟩
          · exact ⟨rfl, rfl⟩
          · rcases rest2 with _ | ⟨v2, us⟩
            · dsimp only
              by_cases h5 : v1.all isDigitC = true
              · rw [if_pos h5]; exact ⟨rfl, rfl⟩
              · rw [if_neg h5]; exact ⟨rfl, rfl⟩
            · dsimp only
              by_cases h5 : v1.all isDigitC = true <;>
                by_cases h6 : v2.all isDigitC = true
              · rw [if_pos h5, if_pos h6]; exact ⟨rfl, rfl⟩
              · rw [if_pos h5, if_neg h6]; exact ⟨rfl, rfl⟩
              · rw [if_neg h5, if_pos h6]; exact ⟨rfl, rfl⟩
              · rw [if_neg h5, if_neg h6]; exact ⟨rfl, rfl⟩
        · rw [if_neg h4]; exact ⟨rfl, rfl⟩

/-- Processing only blank and directive lines succeeds and leaves the shared
key and the scratch codes untouched. -/
lemma processLines_preamble (decode : List Char → Option (List Nat)) :
    ∀ (pre : List (List Char)), (∀ l ∈ pre, l = [] ∨ l.head? = some '"') →
    ∀ cfg : totp_user_config,
      ∃ cfg', processLines decode cfg pre = some cfg' ∧
        cfg'.shared_key = cfg.shared_key ∧
        cfg'.scratch_codes = cfg.scratch_codes := by
  intro pre
  induction pre with
  | nil => intro _ cfg; exact ⟨cfg, rfl, rfl, rfl⟩
  | cons l ls ih =>
    intro h cfg
    have hls := fun x hx => h x (List.mem_cons_of_mem _ hx)
    rcases h l (List.mem_cons_self _ _) with rfl | hq
    · rw [processLines_cons]
      exact ih hls cfg
    · have hne : l ≠ [] := by
        intro he; rw [he] at hq; exact absurd hq (by decide)
      have hstep : processLine decode cfg l = some (processDirective cfg l) := by
        unfold processLine
        rw [if_neg hne, if_pos hq]
      rw [processLines_cons, hstep]
      obtain ⟨cfg', h1, h2, h3⟩ := ih hls (processDirective cfg l)
      exact ⟨cfg', h1, h2.trans (processDirective_preserves cfg l).1,
        h3.trans (processDirective_preserves cfg l).2⟩

/-- Once the shared key is set, the remaining lines never fail, and the
scratch codes collected are exactly the valid scratch lines in encounter
order, capped at 10 in total. -/
lemma processLines_scratch_phase (decode : List Char → Option (List Nat)) (k : List Nat) :
    ∀ (lines : List (List Char)) (cfg : totp_user_config),
      cfg.shared_key = some k → cfg.scratch_codes.length ≤ 10 →
      ∃ cfg', processLines decode cfg lines = some cfg' ∧ cfg'.shared_key = some k ∧
        cfg'.scratch_codes = cfg.scratch_codes ++
          (((lines.filter isScratchLine).take (10 - cfg.scratch_codes.length)).map
            (fun l => apr_atoi64d l % 2 ^ 32)) := by
  intro lines
  induction lines with
  | nil => intro cfg hsk _; exact ⟨cfg, rfl, hsk, by simp⟩
  | cons l ls ih =>
    intro cfg hsk hlen
    by_cases hblank : l = []
    · subst hblank
      rw [processLines_cons]
      have hfil : isScratchLine ([] : List Char) = false := rfl
      obtain ⟨cfg', h1, h2, h3⟩ := ih cfg hsk hlen
      exact ⟨cfg', h1, h2, by rw [h3, List.filter_cons_of_neg (by rw [hfil]; exact Bool.false_ne_true)]⟩
    · by_cases hq : l.head? = some '"'
      · have hstep : processLine decode cfg l = some (processDirective cfg l) := by
          unfold processLine
          rw [if_neg hblank, if_pos hq]
        rw [processLines_cons, hstep]
        have hpd := processDirective_preserves cfg l
        obtain ⟨cfg', h1, h2, h3⟩ :=
          ih (processDirective cfg l) (hpd.1.trans hsk) (by rw [hpd.2]; exact hlen)
        have hfil : isScratchLine l = false := by
          unfold isScratchLine
          rw [hq]
          simp
        refine ⟨cfg', h1, h2, ?_⟩
        rw [h3, hpd.2, List.filter_cons_of_neg (by rw [hfil]; exact Bool.false_ne_true)]
      · have hfil : isScratchLine l = (l.all isDigitC) := by
          unfold isScratchLine
          rw [decide_eq_true hblank, decide_eq_true hq]
          simp
        have hstep : processLine decode cfg l =
            if l.all isDigitC ∧ cfg.scratch_codes.length < 10
            then some { cfg with
              scratch_codes := cfg.scratch_codes ++ [apr_atoi64d l % 2 ^ 32] }
            else some cfg := by
          unfold processLine
          rw [if_neg hblank, if_neg hq, hsk]
        by_cases hd : l.all isDigitC = true
        · by_cases hlt : cfg.scratch_codes.length < 10
          · rw [processLines_cons, hstep, if_pos ⟨hd, hlt⟩]
            obtain ⟨cfg', h1, h2, h3⟩ := ih
              { cfg with scratch_codes :=
                  cfg.scratch_codes ++ [apr_atoi64d l % 2 ^ 32] }
              hsk (by simp; omega)
            refine ⟨cfg', h1, h2, ?_⟩
            rw [h3]
            dsimp only
            rw [List.filter_cons_of_pos (show isScratchLine l = true by rw [hfil]; exact hd)]
            rw [List.length_append, List.length_singleton]
            have h10 : 10 - cfg.scratch_codes.length =
                (10 - (cfg.scratch_codes.length + 1)) + 1 := by omega
            rw [h10, List.take_succ_cons, List.map_cons, List.append_assoc,
              List.singleton_append]
          · rw [processLines_cons, hstep, if_neg (fun hand => hlt hand.2)]
            obtain ⟨cfg', h1, h2, h3⟩ := ih cfg hsk hlen
            have h0 : 10 - cfg.scratch_codes.length = 0 := by omega
            refine ⟨cfg', h1, h2, ?_⟩
            rw [h3, h0, List.take_zero, List.take_zero]
        · rw [processLines_cons, hstep, if_neg (fun hand => hd hand.1)]
          obtain ⟨cfg', h1, h2, h3⟩ := ih cfg hsk hlen
          refine ⟨cfg', h1, h2, ?_⟩
          rw [h3, List.filter_cons_of_neg (by rw [hfil]; exact hd)]

/-- C8.  Secret and scratch-code parsing: after any preamble of blank and
directive lines, the first other line is the Base32 secret — if it fails to
decode, the whole load fails with no partial record; if it decodes, the load
succeeds, the record holds the decoded key, and its scratch codes are exactly
the valid (non-blank, non-directive, all-digit) later lines in encounter
order, the first 10 of them, each cast to `unsigned int`; invalid scratch
lines are skipped without failing the load. -/
theorem C8_secret_fatal_and_scratch_list (env : Env) (user dir : String)
    (pre : List (List Char)) (secretLine : List Char) (post : List (List Char))
    (htd : env.conf.tokenDir = some dir)
    (hstore : env.store user = some (pre ++ secretLine :: post))
    (hpre : ∀ l ∈ pre, l = [] ∨ l.head? = some '"')
    (hsec1 : secretLine ≠ [])
    (hsec2 : secretLine.head? ≠ some '"') :
    (env.decode secretLine = none → get_user_totp_config env user = none) ∧
    (∀ key, env.decode secretLine = some key →
      ∃ cfg, get_user_totp_config env user = some cfg ∧
        cfg.shared_key = some key ∧
        cfg.scratch_codes = ((post.filter isScratchLine).take 10).map
          (fun l => apr_atoi64d l % 2 ^ 32)) := by
  obtain ⟨cfg1, hc1, hsk1, hsc1⟩ := processLines_preamble env.decode pre hpre initUserConfig
  have hnone : cfg1.shared_key = none := hsk1
  have hload : get_user_totp_config env user =
      processLines env.decode initUserConfig (pre ++ secretLine :: post) := by
    unfold get_user_totp_config
    rw [htd, hstore]
  constructor
  · intro hdec
    have hstep : processLine env.decode cfg1 secretLine = none := by
      unfold processLine
      rw [if_neg hsec1, if_neg hsec2, hnone, hdec]
    rw [hload, processLines_append, hc1]
    dsimp only
    rw [processLines_cons, hstep]
  · intro key hdec
    have hstep : processLine env.decode cfg1 secretLine =
        some { cfg1 with shared_key := some key } := by
      unfold processLine
      rw [if_neg hsec1, if_neg hsec2, hnone, hdec]
    have hlen0 : ({ cfg1 with shared_key := some key } :
        totp_user_config).scratch_codes.length ≤ 10 := by
      show cfg1.scratch_codes.length ≤ 10
      rw [hsc1]
      decide
    obtain ⟨cfg', h1, h2, h3⟩ := processLines_scratch_phase env.decode key post
      { cfg1 with shared_key := some key } rfl hlen0
    refine ⟨cfg', ?_, h2, ?_⟩
    · rw [hload, processLines_append, hc1]
      dsimp only
      rw [processLines_cons, hstep]
      exact h1
    · rw [h3]
      have hsc : ({ cfg1 with shared_key := some key } :
          totp_user_config).scratch_codes = [] := hsc1
      rw [hsc]
      simp

/-- C8 witness: `erin`'s secret fails to decode, so the load fails; `carol`'s
record loads with key `[9, 9]`, keeping the two valid scratch codes in order
and skipping the invalid line `9x9`. -/
theorem C8_witness :
    get_user_totp_config envW "erin" = none ∧
    (∃ cfg, get_user_totp_config envW "carol" = some cfg ∧
      cfg.shared_key = some [9, 9] ∧
      cfg.scratch_codes = [11111111, 22222222]) := by
  constructor
  · exact (C8_secret_fatal_and_scratch_list envW "erin" "tokens" []
      ("BADSECRET".toList) [] (by decide) (by decide)
      (fun l hl => absurd hl (List.not_mem_nil l)) (by decide) (by decide)).1 (by decide)
  · obtain ⟨cfg, h1, h2, h3⟩ := (C8_secret_fatal_and_scratch_list envW "carol" "tokens"
      ["\" DISALLOW_REUSE".toList] ("SECRETC".toList)
      ["11111111".toList, "9x9".toList, "22222222".toList] (by decide) (by decide)
      (by decide) (by decide) (by decide)).2 [9, 9] (by decide)
    exact ⟨cfg, h1, h2, h3.trans (by decide)⟩

end Totp
